import Mathlib

/-!
Shallow embedding of `meilisearch-http/src/routes/search.rs`
(search-request normalization and validation layer), together with
theorems settling the specification claims about it.

Conventions of the embedding:
* Rust `HashSet` / `HashMap` VALUES are represented canonically as
  strictly sorted lists (of elements, resp. of key-value pairs sorted by
  key): two Rust hash containers are equal as values iff their canonical
  representations are equal.  Iterating a hash container has no specified
  order; wherever an iteration order can influence an order-sensitive
  output, the order is an explicit parameter of the embedding
  (`tokenIter` below), constrained to enumerate the set.  Iterations whose
  sink is itself a hash container (order-insensitive) are performed in the
  canonical order, which is observationally equivalent.
* `serde_json::from_str` and `FacetFilter::from_str` live outside the
  embedded file and are passed as explicit function parameters.
* Machine integers (`usize`) are modelled as `Nat`; no arithmetic in this
  code can overflow short of astronomically long input strings.
-/

namespace MeiliSearch

/-- A JSON value, as produced by `serde_json` (model of `serde_json::Value`). -/
inductive JValue where
  | null : JValue
  | bool (b : Bool) : JValue
  | num (n : Int) : JValue
  | str (s : String) : JValue
  | arr (vs : List JValue) : JValue
  | obj (fields : List (String × JValue)) : JValue

/-- Field identifiers (`meilisearch_schema::FieldId`). -/
abbrev FieldId := Nat

/-- The slice of the schema this layer consumes (see `meilisearch_schema::Schema`):
the displayed attribute names (`displayed_name()`, a `HashSet`, represented here
canonically as a list), and the name-to-id / id-to-name indexes (`id()` / `name()`),
represented as association lists. -/
structure Schema where
  displayedNames : List String
  nameToId : List (String × FieldId)
  idToName : List (FieldId × String)
deriving DecidableEq, Repr

/-- `schema.id(name)` — resolve an attribute name to its field id. -/
def Schema.fieldId (s : Schema) (n : String) : Option FieldId :=
  (s.nameToId.find? (fun p => p.1 == n)).map (·.2)

/-- `schema.name(id)` — resolve a field id to its attribute name. -/
def Schema.fieldName (s : Schema) (i : FieldId) : Option String :=
  (s.idToName.find? (fun p => p.1 == i)).map (·.2)

/-- The error type of the facet-list resolver (`FacetCountError`); the variants
used by this file.  `unexpectedToken` carries the offending value and the
expected shapes, as passed to `FacetCountError::unexpected_token`. -/
inductive FacetCountError where
  | json : FacetCountError
  | noFacetSet : FacetCountError
  | attributeNotSet (name : String) : FacetCountError
  | unexpectedToken (found : JValue) (expected : List String) : FacetCountError

/-- `f == &Value::String("*".to_string())` — the wildcard test applied to each
array element in `prepare_facet_list`. -/
def JValue.isWildcard : JValue → Bool
  | .str s => s == "*"
  | _ => false

/-- Whether a JSON value is a string (the shape accepted for the elements of
the facets-distribution array). -/
def JValue.isString : JValue → Bool
  | .str _ => true
  | _ => false

/-- The element loop of `prepare_facet_list` (the `for facet in vals` loop):
processes array elements in input order, accumulating `(id, name)` pairs. -/
def facetLoop (schema : Schema) (facetAttrs : List FieldId) :
    List JValue → List (FieldId × String) → Except FacetCountError (List (FieldId × String))
  | [], acc => .ok acc
  | v :: rest, acc =>
    match v with
    | .str facet =>
      match schema.fieldId facet with
      | some i =>
        if facetAttrs.contains i then
          facetLoop schema facetAttrs rest (acc ++ [(i, facet)])
        else
          .error (.attributeNotSet facet)
      | none => facetLoop schema facetAttrs rest acc
    | bad => .error (.unexpectedToken bad ["String"])

/-- Body of `prepare_facet_list` after the JSON parse: dispatch on the parsed
value; on an array, the wildcard short-circuit, otherwise the element loop. -/
def prepareFacetListParsed (v : JValue) (schema : Schema) (facetAttrs : List FieldId) :
    Except FacetCountError (List (FieldId × String)) :=
  match v with
  | .arr vals =>
    if vals.any JValue.isWildcard then
      .ok (facetAttrs.filterMap (fun i => (schema.fieldName i).map (fun n => (i, n))))
    else
      facetLoop schema facetAttrs vals []
  | bad => .error (.unexpectedToken bad ["[String]"])

/-- `prepare_facet_list`.  The `serde_json::from_str` call is external to the
embedded file; its outcome is the `parsed` argument.  Modelled from the spec:
a parse failure maps to the terminal error `FacetCountError::Json` (the
`From<serde_json::Error>` conversion invoked by `?` lives in `error.rs`,
outside the embedded source). -/
def prepareFacetList (parsed : Option JValue) (schema : Schema) (facetAttrs : List FieldId) :
    Except FacetCountError (List (FieldId × String)) :=
  match parsed with
  | none => .error .json
  | some v => prepareFacetListParsed v schema facetAttrs

/-! Representations of `HashSet<String>` and `HashMap<String, usize>` values:
duplicate-free lists in first-insertion order, resp. association lists with
in-place overwrite.  A hash container has no observable order, so two
containers are equal as values iff they hold the same elements (resp. the same
key-value graph); every iteration of such a container performed by the source
whose sink is order-sensitive is given an explicit order parameter instead
(`tokenIter` below). -/

/-- `HashSet::insert`: a no-op when the element is present, else the element is
added (kept here at the end of the list). -/
def setInsert (a : String) (s : List String) : List String :=
  if s.contains a then s else s ++ [a]

/-- `HashMap::insert`: overwrite the (first) binding of the key in place, or
append a new binding. -/
def mapInsert (k : String) (v : Nat) : List (String × Nat) → List (String × Nat)
  | [] => [(k, v)]
  | (k', v') :: rest =>
    if k = k' then (k, v) :: rest else (k', v') :: mapInsert k v rest

/-- Lookup in an association list (a `HashMap<String, usize>` read). -/
def mapLookup (k : String) : List (String × Nat) → Option Nat
  | [] => none
  | (k', v) :: rest => if k = k' then some v else mapLookup k rest

/-- Split a character list at every occurrence of `sep` (helper for
`splitOnChar`); the accumulator holds the current segment reversed. -/
def splitCharsAux (sep : Char) : List Char → List Char → List (List Char)
  | [], acc => [acc.reverse]
  | c :: cs, acc =>
    if c = sep then acc.reverse :: splitCharsAux sep cs []
    else splitCharsAux sep cs (c :: acc)

/-- Models Rust `str::split(sep)` for a single-character separator (as used
with `','` and `':'` in the source): the list of separated segments, always
nonempty, with empty segments preserved. -/
def splitOnChar (sep : Char) (s : String) : List String :=
  (splitCharsAux sep s.toList []).map String.mk

/-- Models Rust `str::parse::<usize>`: an optional leading `+`, then one or more
ASCII digits, nothing else.  (The `usize` overflow rejection of Rust's parser is
not modelled; it is unreachable at the inputs considered here.) -/
def parseUsize (s : String) : Option Nat :=
  let ds := match s.toList with
    | '+' :: rest => rest
    | cs => cs
  if ds.isEmpty then none
  else if ds.all (fun c => c.isDigit) then
    some (ds.foldl (fun n c => n * 10 + (c.toNat - 48)) 0)
  else none

/-- The attribute-name part of a crop token: `attribute.split(':')` then
`.next()`.  (A split of any string is nonempty, so this is always `some`.) -/
def cropTokenAttr (token : String) : Option String :=
  (splitOnChar ':' token).head?

/-- The length part of a crop token:
`attribute.next().and_then(|s| s.parse().ok()).unwrap_or(default_length)` —
the second colon-segment parsed as `usize`, else the default length. -/
def cropTokenLength (token : String) (defaultLength : Nat) : Nat :=
  (((splitOnChar ':' token)[1]?).bind parseUsize).getD defaultLength

/-- One iteration of the `for attribute in attributes_to_crop.split(',')` loop:
the state is the crop mapping under construction together with the sequence of
warned attribute names (`warn!` is log-only; recorded here to reason about it). -/
def cropStepTok (displayed restricted : List String) (defaultLength : Nat)
    (st : List (String × Nat) × List String) (token : String) :
    List (String × Nat) × List String :=
  let length := cropTokenLength token defaultLength
  match cropTokenAttr token with
  | some "*" => (restricted.foldl (fun m a => mapInsert a length m) st.1, st.2)
  | some attr =>
    if displayed.contains attr then (mapInsert attr length st.1, st.2)
    else (st.1, st.2 ++ [attr])
  | none => st

/-- The `attributes_to_crop` block of `search_with_url_query`: returns the crop
mapping handed to `attributes_to_crop` (absent when the parameter is absent)
and the warned attribute names.  `restricted` is the restricted attribute set
(its iteration order is immaterial: every insertion of one token carries the
same length, and the sink is a map value). -/
def resolveCrop (displayed restricted : List String)
    (attributesToCrop : Option String) (cropLength : Option Nat) :
    Option (List (String × Nat)) × List String :=
  match attributesToCrop with
  | none => (none, [])
  | some s =>
    let st := (splitOnChar ',' s).foldl
      (cropStepTok displayed restricted (cropLength.getD 200)) ([], [])
    (some st.1, st.2)

/-- One iteration of the `for attribute in attributes_to_highlight.split(',')`
loop, with the same state convention as `cropStepTok`. -/
def highlightStepTok (displayed restricted : List String)
    (st : List String × List String) (attrTok : String) :
    List String × List String :=
  if attrTok = "*" then
    (restricted.foldl (fun s a => setInsert a s) st.1, st.2)
  else if displayed.contains attrTok then (setInsert attrTok st.1, st.2)
  else (st.1, st.2 ++ [attrTok])

/-- The `attributes_to_highlight` block of `search_with_url_query`. -/
def resolveHighlight (displayed restricted : List String)
    (attributesToHighlight : Option String) : Option (List String) × List String :=
  match attributesToHighlight with
  | none => (none, [])
  | some s =>
    let st := (splitOnChar ',' s).foldl (highlightStepTok displayed restricted) ([], [])
    (some st.1, st.2)

/-- One admissible iteration order of the `HashSet` built by
`attributes_to_retrieve.split(',').collect()`: any enumeration, without
repetition, of the set of comma-separated tokens.  When the parameter is
absent no set is built and the order is the empty list. -/
def ValidIter (attributesToRetrieve : Option String) (tokenIter : List String) : Prop :=
  match attributesToRetrieve with
  | some s => tokenIter.Perm (splitOnChar ',' s).dedup
  | none => tokenIter = []

instance ValidIter.decidable (p : Option String) (l : List String) :
    Decidable (ValidIter p l) :=
  match p with
  | some s => inferInstanceAs (Decidable (l.Perm (splitOnChar ',' s).dedup))
  | none => inferInstanceAs (Decidable (l = []))

/-- The `attributes_to_retrieve` block of `search_with_url_query`: returns the
restricted attribute set and the sequence of `add_retrievable_field`
registrations in the order performed, which follows the iteration order
`tokenIter` of the token `HashSet`.  The restricted set's value is the set of
tokens that are displayed attributes; it is represented here enumerated in
`displayed` order, which depends only on the set (membership in `tokenIter` is
iteration-order-independent). -/
def resolveRetrieve (displayed : List String) (attributesToRetrieve : Option String)
    (tokenIter : List String) : List String × List String :=
  match attributesToRetrieve with
  | some _ =>
    if tokenIter.contains "*" then
      (displayed, [])
    else
      (displayed.filter (fun a => tokenIter.contains a),
        tokenIter.filter (fun a => displayed.contains a))
  | none => (displayed, [])

/-- Modelled from the spec: the facet-filter expression
(`meilisearch_core::facets::FacetFilter`, outside the embedded file) is opaque
to this layer — "parse-and-validate against schema + facet-enabled set, or
fail". -/
structure FacetFilterExpr where
  raw : String
deriving DecidableEq, Repr

/-- Terminal errors the assembler can surface from the embedded blocks. -/
inductive AssembleError where
  | facetCount (e : FacetCountError) : AssembleError
  | facetFilterParse : AssembleError

/-- The deserialized query parameters (`struct SearchQuery`). -/
structure SearchQuery where
  q : String
  offset : Option Nat
  limit : Option Nat
  attributesToRetrieve : Option String
  attributesToCrop : Option String
  cropLength : Option Nat
  attributesToHighlight : Option String
  filters : Option String
  matchesParam : Option Bool
  facetFilters : Option String
  facetsDistribution : Option String
deriving DecidableEq, Repr

/-- The observable search specification accumulated on the `SearchBuilder`:
every `search_builder` mutation performed by `search_with_url_query`.
`retrievableFields` is the sequence of `add_retrievable_field` calls in order;
`cropSpec` and `highlightSpec` are `HashMap`/`HashSet` values (canonical). -/
structure SearchSpecification where
  query : String
  offset : Option Nat
  limit : Option Nat
  retrievableFields : List String
  facetFilterExpr : Option FacetFilterExpr
  facets : Option (List (FieldId × String))
  cropSpec : Option (List (String × Nat))
  highlightSpec : Option (List String)
  filters : Option String
  matchesFlag : Bool
deriving DecidableEq, Repr

/-- The `facet_filters` block of `search_with_url_query`: when the parameter is
present and faceting is configured, parse it (`FacetFilter::from_str`,
abstracted as `facetFilterParse`, `none` = parse error) and attach the result;
when faceting is not configured the parameter is silently ignored. -/
def resolveFacetFilters (facetFilters : Option String) (schema : Schema)
    (facetAttrs : Option (List FieldId))
    (facetFilterParse : String → Schema → List FieldId → Option FacetFilterExpr) :
    Except AssembleError (Option FacetFilterExpr) :=
  match facetFilters with
  | none => .ok none
  | some f =>
    match facetAttrs with
    | none => .ok none
    | some attrs =>
      match facetFilterParse f schema attrs with
      | some e => .ok (some e)
      | none => .error .facetFilterParse

/-- The `facets_distribution` block of `search_with_url_query`: when the
parameter is present, faceting must be configured (`NoFacetSet` otherwise) and
the facet list is prepared by `prepare_facet_list`. -/
def resolveFacetsDistribution (facetsDistribution : Option String) (schema : Schema)
    (facetAttrs : Option (List FieldId)) (jsonParse : String → Option JValue) :
    Except AssembleError (Option (List (FieldId × String))) :=
  match facetsDistribution with
  | none => .ok none
  | some facetsStr =>
    match facetAttrs with
    | some attrs =>
      match prepareFacetList (jsonParse facetsStr) schema attrs with
      | .ok fieldIds => .ok (some fieldIds)
      | .error e => .error (.facetCount e)
    | none => .error (.facetCount .noFacetSet)

/-- The request assembler: the body of `search_with_url_query` from the schema
read to the final `search`, with the external collaborators passed as
arguments: `facetAttrs` is `index.main.attributes_for_faceting(&reader)`,
`jsonParse` is `serde_json::from_str`, `facetFilterParse` is
`FacetFilter::from_str` (`none` = parse error), and `tokenIter` is the
iteration order of the attributes-to-retrieve token `HashSet`. -/
def assemble (params : SearchQuery) (schema : Schema)
    (facetAttrs : Option (List FieldId))
    (jsonParse : String → Option JValue)
    (facetFilterParse : String → Schema → List FieldId → Option FacetFilterExpr)
    (tokenIter : List String) : Except AssembleError SearchSpecification :=
  let rr := resolveRetrieve schema.displayedNames params.attributesToRetrieve tokenIter
  (resolveFacetFilters params.facetFilters schema facetAttrs facetFilterParse).bind
    fun ffExpr =>
  (resolveFacetsDistribution params.facetsDistribution schema facetAttrs jsonParse).bind
    fun facets =>
  .ok {
      query := params.q
      offset := params.offset
      limit := params.limit
      retrievableFields := rr.2
      facetFilterExpr := ffExpr
      facets := facets
      cropSpec := (resolveCrop schema.displayedNames rr.1
        params.attributesToCrop params.cropLength).1
      highlightSpec := (resolveHighlight schema.displayedNames rr.1
        params.attributesToHighlight).1
      filters := params.filters
      matchesFlag := params.matchesParam.getD false
    }

/-! ### Helper lemmas -/

/-- Reading a map after an insertion: the inserted key reads back the inserted
value, every other key is unaffected. -/
theorem mapLookup_mapInsert (k k' : String) (v : Nat) (m : List (String × Nat)) :
    mapLookup k (mapInsert k' v m) = if k = k' then some v else mapLookup k m := by
  induction m with
  | nil =>
    by_cases h : k = k' <;> simp [mapInsert, mapLookup, h]
  | cons p rest ih =>
    obtain ⟨k0, v0⟩ := p
    by_cases h1 : k' = k0
    · subst h1
      by_cases h2 : k = k' <;> simp [mapInsert, mapLookup, h2]
    · by_cases h2 : k = k0
      · subst h2
        simp [mapInsert, mapLookup, h1, Ne.symm h1, ih]
      · simp [mapInsert, mapLookup, h1, h2, ih]

/-- Reading a map after inserting the same value at every key of `r`: keys of
`r` read back that value, the rest of the map is unaffected. -/
theorem mapLookup_foldl_mapInsert (r : List String) (v : Nat) (a : String)
    (m : List (String × Nat)) :
    mapLookup a (r.foldl (fun m x => mapInsert x v m) m) =
      if a ∈ r then some v else mapLookup a m := by
  induction r generalizing m with
  | nil => simp
  | cons x xs ih =>
    simp only [List.foldl_cons, ih, mapLookup_mapInsert, List.mem_cons]
    by_cases hx : a ∈ xs
    · simp [hx]
    · by_cases hax : a = x <;> simp [hx, hax]

/-! ### Claims about `prepare_facet_list` -/

/-- C1: for every well-formed JSON array passed to `prepare_facet_list` that
contains the literal string `"*"` as an element anywhere, the result is the
full `facet_attrs` sequence paired with each id's resolved name, in
`facet_attrs` order, any id that fails to resolve silently skipped; all other
array elements are ignored (the result does not mention `vals`). -/
theorem prepareFacetList_wildcard (schema : Schema) (facetAttrs : List FieldId)
    (vals : List JValue) (h : JValue.str "*" ∈ vals) :
    prepareFacetList (some (.arr vals)) schema facetAttrs =
      .ok (facetAttrs.filterMap (fun i => (schema.fieldName i).map (fun n => (i, n)))) := by
  have hany : vals.any JValue.isWildcard = true :=
    List.any_eq_true.mpr ⟨_, h, rfl⟩
  simp [prepareFacetList, prepareFacetListParsed, hany]

/-- Witness for C1 at the spec's example facet set `{1 : "genre", 2 : "year"}`,
with an extra non-string element, an extra unknown name, and an unresolvable
id 9 in the facet set. -/
theorem prepareFacetList_wildcard_witness :
    JValue.str "*" ∈ [JValue.str "genre", JValue.str "*", JValue.num 7] ∧
    prepareFacetList
        (some (.arr [JValue.str "genre", JValue.str "*", JValue.num 7]))
        { displayedNames := [], nameToId := [("genre", 1), ("year", 2)],
          idToName := [(1, "genre"), (2, "year")] } [1, 2, 9] =
      .ok [(1, "genre"), (2, "year")] :=
  ⟨by simp,
    (prepareFacetList_wildcard
        { displayedNames := [], nameToId := [("genre", 1), ("year", 2)],
          idToName := [(1, "genre"), (2, "year")] } [1, 2, 9] _ (by simp)).trans rfl⟩

/-- C2: in the non-wildcard path `prepare_facet_list` iterates array elements
in input order; at each string element: no schema id — the element is silently
skipped and processing continues; a schema id that is not facet-enabled — the
terminal error `AttributeNotSet` carrying that name, whatever follows; a
facet-enabled id — its `(id, name)` pair is appended.  Consequently a run of
facet-enabled names resolves to their pairs in input order, duplicates kept. -/
theorem facetLoop_policy (schema : Schema) (facetAttrs : List FieldId) :
    (∀ name rest acc, schema.fieldId name = none →
      facetLoop schema facetAttrs (JValue.str name :: rest) acc =
        facetLoop schema facetAttrs rest acc) ∧
    (∀ name i rest acc, schema.fieldId name = some i → i ∉ facetAttrs →
      facetLoop schema facetAttrs (JValue.str name :: rest) acc =
        .error (.attributeNotSet name)) ∧
    (∀ name i rest acc, schema.fieldId name = some i → i ∈ facetAttrs →
      facetLoop schema facetAttrs (JValue.str name :: rest) acc =
        facetLoop schema facetAttrs rest (acc ++ [(i, name)])) ∧
    (∀ names : List String,
      (∀ n ∈ names, ∃ i, schema.fieldId n = some i ∧ i ∈ facetAttrs) →
      ∀ acc, facetLoop schema facetAttrs (names.map JValue.str) acc =
        .ok (acc ++ names.map (fun n => ((schema.fieldId n).getD 0, n)))) := by
  refine ⟨?_, ?_, ?_, ?_⟩
  · intro name rest acc h
    simp [facetLoop, h]
  · intro name i rest acc h hni
    simp [facetLoop, h, hni]
  · intro name i rest acc h hi
    simp [facetLoop, h, hi]
  · intro names h
    induction names with
    | nil => intro acc; simp [facetLoop]
    | cons n ns ih =>
      intro acc
      obtain ⟨i, hi, him⟩ := h n (List.mem_cons_self n ns)
      have := ih (fun n' hn' => h n' (List.mem_cons_of_mem n hn'))
      simp [facetLoop, hi, him, this]

/-- Witness for C2 on the schema `{genre : 1, year : 2}` with only `genre`
facet-enabled: an unknown name is skipped, `year` is `AttributeNotSet`,
and duplicate `genre` entries are both kept in order. -/
theorem facetLoop_policy_witness :
    facetLoop
        { displayedNames := [], nameToId := [("genre", 1), ("year", 2)],
          idToName := [(1, "genre"), (2, "year")] } [1]
        [JValue.str "unknown"] [] =
      facetLoop
        { displayedNames := [], nameToId := [("genre", 1), ("year", 2)],
          idToName := [(1, "genre"), (2, "year")] } [1] [] [] ∧
    facetLoop
        { displayedNames := [], nameToId := [("genre", 1), ("year", 2)],
          idToName := [(1, "genre"), (2, "year")] } [1]
        [JValue.str "year", JValue.str "genre"] [] =
      .error (.attributeNotSet "year") ∧
    facetLoop
        { displayedNames := [], nameToId := [("genre", 1), ("year", 2)],
          idToName := [(1, "genre"), (2, "year")] } [1]
        [JValue.str "genre", JValue.str "genre"] [] =
      .ok [(1, "genre"), (1, "genre")] := by
  refine ⟨?_, ?_, ?_⟩
  · exact (facetLoop_policy _ _).1 "unknown" _ _ rfl
  · exact (facetLoop_policy _ _).2.1 "year" 2 _ _ rfl (by simp)
  · exact ((facetLoop_policy _ _).2.2.2 ["genre", "genre"]
      (by intro n hn; simp at hn; subst hn; exact ⟨1, rfl, by simp⟩) []).trans rfl

/-- C7: the error taxonomy of `prepare_facet_list`: a failed JSON parse is the
`Json` error; a parsed non-array value is the unexpected-token error naming
`"[String]"`; absent a wildcard, the array is processed by the element loop,
where a non-string element is the unexpected-token error naming `"String"`. -/
theorem prepareFacetList_errors (schema : Schema) (facetAttrs : List FieldId) :
    prepareFacetList none schema facetAttrs = .error .json ∧
    (∀ v : JValue, (∀ vs, v ≠ .arr vs) →
      prepareFacetList (some v) schema facetAttrs =
        .error (.unexpectedToken v ["[String]"])) ∧
    (∀ vals, vals.any JValue.isWildcard = false →
      prepareFacetList (some (.arr vals)) schema facetAttrs =
        facetLoop schema facetAttrs vals []) ∧
    (∀ bad rest acc, bad.isString = false →
      facetLoop schema facetAttrs (bad :: rest) acc =
        .error (.unexpectedToken bad ["String"])) := by
  refine ⟨rfl, ?_, ?_, ?_⟩
  · intro v hv
    cases v with
    | arr vs => exact absurd rfl (hv vs)
    | _ => rfl
  · intro vals h
    simp [prepareFacetList, prepareFacetListParsed, h]
  · intro bad rest acc h
    cases bad with
    | str s => simp [JValue.isString] at h
    | _ => rfl

/-- Witness for C7: malformed JSON, a JSON object at top level, and a non-string
array element. -/
theorem prepareFacetList_errors_witness :
    prepareFacetList none
      { displayedNames := [], nameToId := [], idToName := [] } [] =
      .error .json ∧
    prepareFacetList (some (.obj [("a", .num 1)]))
      { displayedNames := [], nameToId := [], idToName := [] } [] =
      .error (.unexpectedToken (.obj [("a", .num 1)]) ["[String]"]) ∧
    prepareFacetList (some (.arr [.num 5]))
      { displayedNames := [], nameToId := [], idToName := [] } [] =
      .error (.unexpectedToken (.num 5) ["String"]) := by
  refine ⟨(prepareFacetList_errors _ _).1, ?_, ?_⟩
  · exact (prepareFacetList_errors _ _).2.1 _ (fun vs h => by cases h)
  · exact ((prepareFacetList_errors _ _).2.2.1 [.num 5] rfl).trans
      ((prepareFacetList_errors _ _).2.2.2 (.num 5) [] [] rfl)

/-! ### Claims about the request assembler -/

/-- C3: when the index has no facet-enabled attributes
(`attributes_for_faceting` is `None`): a present `facetFilters` parameter is a
silent no-op — the assembled result is that of the same request without the
parameter, and (when nothing else fails) the result is a specification with no
filter attached — whereas a present `facetsDistribution` parameter is the
terminal error `FacetCountError::NoFacetSet`. -/
theorem assemble_noFacetSet_asymmetry (params : SearchQuery) (schema : Schema)
    (jp : String → Option JValue)
    (ffp : String → Schema → List FieldId → Option FacetFilterExpr)
    (tokenIter : List String) :
    (assemble params schema none jp ffp tokenIter =
      assemble { params with facetFilters := none } schema none jp ffp tokenIter) ∧
    (params.facetsDistribution = none →
      (assemble params schema none jp ffp tokenIter).map
        SearchSpecification.facetFilterExpr = .ok none) ∧
    (∀ fd, params.facetsDistribution = some fd →
      assemble params schema none jp ffp tokenIter =
        .error (.facetCount .noFacetSet)) := by
  have hff : ∀ f, resolveFacetFilters f schema none ffp = .ok none := by
    intro f; cases f <;> rfl
  refine ⟨?_, ?_, ?_⟩
  · simp [assemble, hff]
  · intro hfd
    simp [assemble, hff, resolveFacetsDistribution, hfd, Except.bind, Except.map]
  · intro fd hfd
    simp [assemble, hff, resolveFacetsDistribution, hfd, Except.bind]

/-- Witness for C3: a request carrying both `facetFilters` and (in the second
run) `facetsDistribution`, against an index with faceting unconfigured. -/
theorem assemble_noFacetSet_asymmetry_witness :
    (assemble
        { q := "q", offset := none, limit := none, attributesToRetrieve := none,
          attributesToCrop := none, cropLength := none, attributesToHighlight := none,
          filters := none, matchesParam := none, facetFilters := some "[[\"genre:x\"]]",
          facetsDistribution := none }
        { displayedNames := ["genre"], nameToId := [("genre", 1)],
          idToName := [(1, "genre")] }
        none (fun _ => none) (fun f _ _ => some ⟨f⟩) [] =
      assemble
        { q := "q", offset := none, limit := none, attributesToRetrieve := none,
          attributesToCrop := none, cropLength := none, attributesToHighlight := none,
          filters := none, matchesParam := none, facetFilters := none,
          facetsDistribution := none }
        { displayedNames := ["genre"], nameToId := [("genre", 1)],
          idToName := [(1, "genre")] }
        none (fun _ => none) (fun f _ _ => some ⟨f⟩) []) ∧
    assemble
        { q := "q", offset := none, limit := none, attributesToRetrieve := none,
          attributesToCrop := none, cropLength := none, attributesToHighlight := none,
          filters := none, matchesParam := none, facetFilters := some "[[\"genre:x\"]]",
          facetsDistribution := some "[\"genre\"]" }
        { displayedNames := ["genre"], nameToId := [("genre", 1)],
          idToName := [(1, "genre")] }
        none (fun _ => none) (fun f _ _ => some ⟨f⟩) [] =
      .error (.facetCount .noFacetSet) := by
  constructor
  · exact (assemble_noFacetSet_asymmetry _ _ _ _ _).1
  · exact (assemble_noFacetSet_asymmetry _ _ _ _ _).2.2 _ rfl

/-- C4: for every schema, an `attributesToRetrieve` whose comma-separated
tokens include the literal token `"*"` yields the restricted set equal to the
schema's displayed attribute names, registers no individual retrievable field,
and the whole assembled specification is identical to that of the same request
with the parameter omitted. -/
theorem retrieve_wildcard_eq_absent (params : SearchQuery) (schema : Schema)
    (s : String) (tokenIter : List String)
    (fa : Option (List FieldId)) (jp : String → Option JValue)
    (ffp : String → Schema → List FieldId → Option FacetFilterExpr)
    (hvalid : ValidIter (some s) tokenIter)
    (hstar : "*" ∈ splitOnChar ',' s) :
    resolveRetrieve schema.displayedNames (some s) tokenIter =
      (schema.displayedNames, []) ∧
    assemble { params with attributesToRetrieve := some s } schema fa jp ffp tokenIter =
      assemble { params with attributesToRetrieve := none } schema fa jp ffp [] := by
  have hperm : tokenIter.Perm (splitOnChar ',' s).dedup := hvalid
  have hmem : "*" ∈ tokenIter := hperm.mem_iff.mpr (List.mem_dedup.mpr hstar)
  constructor
  · simp [resolveRetrieve, hmem]
  · simp [assemble, resolveRetrieve, hmem]

/-- Witness for C4 at `attributesToRetrieve = "a,*"` on displayed set
`{"a", "b"}`. -/
theorem retrieve_wildcard_eq_absent_witness :
    resolveRetrieve ["a", "b"] (some "a,*") ["a", "*"] = (["a", "b"], []) ∧
    assemble
        { q := "q", offset := none, limit := none, attributesToRetrieve := some "a,*",
          attributesToCrop := none, cropLength := none, attributesToHighlight := none,
          filters := none, matchesParam := none, facetFilters := none,
          facetsDistribution := none }
        { displayedNames := ["a", "b"], nameToId := [], idToName := [] }
        none (fun _ => none) (fun _ _ _ => none) ["a", "*"] =
      assemble
        { q := "q", offset := none, limit := none, attributesToRetrieve := none,
          attributesToCrop := none, cropLength := none, attributesToHighlight := none,
          filters := none, matchesParam := none, facetFilters := none,
          facetsDistribution := none }
        { displayedNames := ["a", "b"], nameToId := [], idToName := [] }
        none (fun _ => none) (fun _ _ _ => none) [] := by
  have h := retrieve_wildcard_eq_absent
    { q := "q", offset := none, limit := none, attributesToRetrieve := some "a,*",
      attributesToCrop := none, cropLength := none, attributesToHighlight := none,
      filters := none, matchesParam := none, facetFilters := none,
      facetsDistribution := none }
    { displayedNames := ["a", "b"], nameToId := [], idToName := [] }
    "a,*" ["a", "*"] none (fun _ => none) (fun _ _ _ => none)
    (by decide) (by decide)
  exact ⟨h.1, h.2⟩

/-- C10: when `attributesToRetrieve` is present without a wildcard, the tokens
are collapsed into a set before processing: for every admissible iteration
order, each valid attribute is registered at most once, and membership in the
registration sequence and in the restricted set is exactly "valid token"; the
registration order is the set's iteration order, not the input token order
(concretely, for input `"b,a,b"` the iteration order `["a","b"]` is admissible
and registers `["a","b"]`, while the valid tokens in input order are
`["b","a","b"]`). -/
theorem retrieve_dedup_registrations (displayed : List String) (s : String)
    (tokenIter : List String)
    (hvalid : ValidIter (some s) tokenIter)
    (hnostar : "*" ∉ splitOnChar ',' s) :
    ((resolveRetrieve displayed (some s) tokenIter).2).Nodup ∧
    (∀ a, a ∈ (resolveRetrieve displayed (some s) tokenIter).2 ↔
      (a ∈ splitOnChar ',' s ∧ a ∈ displayed)) ∧
    (∀ a, a ∈ (resolveRetrieve displayed (some s) tokenIter).1 ↔
      (a ∈ splitOnChar ',' s ∧ a ∈ displayed)) ∧
    (ValidIter (some "b,a,b") ["a", "b"] ∧
      (resolveRetrieve ["a", "b"] (some "b,a,b") ["a", "b"]).2 = ["a", "b"] ∧
      (splitOnChar ',' "b,a,b").filter
        (fun a => (["a", "b"] : List String).contains a) = ["b", "a", "b"]) := by
  have hperm : tokenIter.Perm (splitOnChar ',' s).dedup := hvalid
  have hmemIter : ∀ a, a ∈ tokenIter ↔ a ∈ splitOnChar ',' s := by
    intro a
    rw [hperm.mem_iff, List.mem_dedup]
  have hnodup : tokenIter.Nodup := hperm.symm.nodup (List.nodup_dedup _)
  have hni : "*" ∉ tokenIter := fun hm => hnostar ((hmemIter _).mp hm)
  have hc : ¬(tokenIter.contains "*" = true) := by simp [hni]
  refine ⟨?_, ?_, ?_, by decide, by decide, by decide⟩
  · simp only [resolveRetrieve, if_neg hc]
    exact hnodup.filter _
  · intro a
    simp [resolveRetrieve, hni, hmemIter a, and_comm]
  · intro a
    simp [resolveRetrieve, hni, hmemIter a, and_comm]

/-- Witness for C10 at input `"b,a,b"` with iteration order `["a","b"]`. -/
theorem retrieve_dedup_registrations_witness :
    ((resolveRetrieve ["a", "b"] (some "b,a,b") ["a", "b"]).2).Nodup ∧
    ("a" ∈ (resolveRetrieve ["a", "b"] (some "b,a,b") ["a", "b"]).2 ↔
      ("a" ∈ splitOnChar ',' "b,a,b" ∧ "a" ∈ ["a", "b"])) :=
  ⟨(retrieve_dedup_registrations ["a", "b"] "b,a,b" ["a", "b"]
      (by decide) (by decide)).1,
    (retrieve_dedup_registrations ["a", "b"] "b,a,b" ["a", "b"]
      (by decide) (by decide)).2.1 "a"⟩

/-! ### Claims about the crop resolver -/

/-- C5: crop tokens are processed strictly left to right with last-writer-wins:
a trailing `"*"` token binds every attribute of the restricted set to that
token's parsed length, overwriting entries set by any earlier tokens;
concretely `"title:50,*"` with restricted set `{"title","body"}` and default
length 200 yields the crop mapping `{"title" : 200, "body" : 200}`. -/
theorem crop_wildcard_last_writer_wins (displayed restricted : List String)
    (d : Nat) (ts : List String) (w : String)
    (st : List (String × Nat) × List String)
    (hw : cropTokenAttr w = some "*") :
    (∀ a, a ∈ restricted →
      mapLookup a (((ts ++ [w]).foldl (cropStepTok displayed restricted d) st).1) =
        some (cropTokenLength w d)) ∧
    (∀ a, mapLookup a ((resolveCrop ["title", "body"] ["title", "body"]
        (some "title:50,*") none).1.getD []) =
      if a = "title" ∨ a = "body" then some 200 else none) := by
  constructor
  · intro a ha
    rw [List.foldl_append]
    simp only [List.foldl_cons, List.foldl_nil]
    simp only [cropStepTok, hw]
    simp [mapLookup_foldl_mapInsert, ha]
  · intro a
    show mapLookup a [("title", 200), ("body", 200)] =
      if a = "title" ∨ a = "body" then some 200 else none
    by_cases h1 : a = "title" <;> by_cases h2 : a = "body" <;>
      simp [mapLookup, h1, h2]

/-- Witness for C5 at the spec's test vector `"title:50,*"`. -/
theorem crop_wildcard_last_writer_wins_witness :
    mapLookup "body" (((["title:50"] ++ ["*"]).foldl
        (cropStepTok ["title", "body"] ["title", "body"] 200) ([], [])).1) =
      some 200 ∧
    mapLookup "title" ((resolveCrop ["title", "body"] ["title", "body"]
        (some "title:50,*") none).1.getD []) = some 200 :=
  ⟨((crop_wildcard_last_writer_wins ["title", "body"] ["title", "body"] 200
      ["title:50"] "*" ([], []) rfl).1 "body" (by simp)).trans rfl,
    ((crop_wildcard_last_writer_wins ["title", "body"] ["title", "body"] 200
      ["title:50"] "*" ([], []) rfl).2 "title").trans (by decide)⟩

/-- The crop-token length as claim C6 words it: the length is obtained by
parsing EVERYTHING after the first colon as an unsigned integer, falling back
to the default on parse failure. -/
def cropTokenLengthSpec (token : String) (defaultLength : Nat) : Nat :=
  match splitOnChar ':' token with
  | [] => defaultLength
  | [_] => defaultLength
  | _ :: restParts =>
    (parseUsize (String.intercalate ":" restParts)).getD defaultLength

/-- C6 counterexample: at token `"title:50:60"` the code parses only the
second colon-segment and takes length 50, while parsing everything after the
first colon (`"50:60"`) fails and the claim therefore demands the default
200. -/
theorem cropTokenLength_counterexample :
    cropTokenLength "title:50:60" 200 = 50 ∧
    cropTokenLengthSpec "title:50:60" 200 = 200 ∧
    (resolveCrop ["title"] [] (some "title:50:60") none).1 = some [("title", 50)] ∧
    cropTokenLength "title:50:60" 200 ≠ cropTokenLengthSpec "title:50:60" 200 :=
  ⟨rfl, rfl, rfl, by decide⟩

/-- C6 amended: the attribute name is the first colon-segment and the length
is obtained by parsing only the SECOND colon-segment (the text between the
first and the second colon) as an unsigned integer, falling back to the
default length on parse failure or absence — so `"title:abc"` yields
`{"title" : default}` and is never an error. -/
theorem cropToken_amended (d : Nat) (t : String) :
    (∀ n ℓ rest, splitOnChar ':' t = n :: ℓ :: rest →
      cropTokenAttr t = some n ∧ cropTokenLength t d = (parseUsize ℓ).getD d) ∧
    (∀ n, splitOnChar ':' t = [n] →
      cropTokenAttr t = some n ∧ cropTokenLength t d = d) ∧
    (resolveCrop ["title"] [] (some "title:abc") none).1 = some [("title", 200)] := by
  refine ⟨?_, ?_, rfl⟩
  · intro n ℓ rest h
    exact ⟨by simp [cropTokenAttr, h], by simp [cropTokenLength, h]⟩
  · intro n h
    exact ⟨by simp [cropTokenAttr, h], by simp [cropTokenLength, h]⟩

/-- Witness for the amended C6 at token `"a:5:b"`. -/
theorem cropToken_amended_witness :
    cropTokenAttr "a:5:b" = some "a" ∧ cropTokenLength "a:5:b" 200 = 5 :=
  ⟨((cropToken_amended 200 "a:5:b").1 "a" "5" ["b"] rfl).1,
    ((cropToken_amended 200 "a:5:b").1 "a" "5" ["b"] rfl).2.trans rfl⟩

/-- C9 counterexample: the token `":5"` has an empty attribute name; no entry
is inserted, but the code routes it through the unknown-attribute branch and
emits a warning for `""` — contradicting "no warning emitted". -/
theorem crop_empty_name_counterexample :
    (resolveCrop ["title"] [] (some ":5") none).1 = some [] ∧
    (resolveCrop ["title"] [] (some ":5") none).2 = [""] ∧
    (resolveCrop ["title"] [] (some ":5") none).2 ≠ [] :=
  ⟨rfl, rfl, by decide⟩

/-- C9 amended: a crop token with an empty attribute name (leading colon or
empty token) inserts nothing into the crop mapping, but — provided `""` is not
a displayed attribute — it takes the unknown-attribute branch and a warning IS
emitted; the code's no-name branch is unreachable, a split being never
empty. -/
theorem crop_empty_name_amended (displayed restricted : List String) (d : Nat)
    (st : List (String × Nat) × List String) (t : String)
    (hattr : cropTokenAttr t = some "")
    (hdisp : "" ∉ displayed) :
    cropStepTok displayed restricted d st t = (st.1, st.2 ++ [""]) ∧
    (∀ t' : String, (cropTokenAttr t').isSome) := by
  have hne : ∀ (sep : Char) (cs acc : List Char), splitCharsAux sep cs acc ≠ [] := by
    intro sep cs
    induction cs with
    | nil => intro acc h; simp [splitCharsAux] at h
    | cons c cs ih =>
      intro acc
      by_cases hc : c = sep
      · simp [splitCharsAux, hc]
      · simp only [splitCharsAux, if_neg hc]
        exact ih _
  constructor
  · simp [cropStepTok, hattr, hdisp]
  · intro t'
    unfold cropTokenAttr splitOnChar
    cases h : splitCharsAux ':' t'.toList [] with
    | nil => exact absurd h (hne ':' t'.toList [])
    | cons a as => simp [h]

/-- Witness for the amended C9 at token `":5"`. -/
theorem crop_empty_name_amended_witness :
    cropStepTok ["title"] [] 200 ([], []) ":5" = ([], [""]) ∧
    (cropTokenAttr "").isSome :=
  ⟨((crop_empty_name_amended ["title"] [] 200 ([], []) ":5" rfl
      (by decide)).1).trans rfl,
    (crop_empty_name_amended ["title"] [] 200 ([], []) ":5" rfl
      (by decide)).2 ""⟩

/-! ### Iteration-order dependence of the assembler (C8) -/

/-- C8 counterexample: for `attributesToRetrieve = "a,b"` on displayed set
`{"a","b"}`, the token-set iteration orders `["a","b"]` and `["b","a"]` are
both admissible for the very same request and schema snapshot, yet the two
assembled specifications differ (in the order of the retrievable-field
registration sequence) — the assembler's observable output depends on
unordered-container iteration order. -/
theorem assemble_iteration_order_counterexample :
    ValidIter (some "a,b") ["a", "b"] ∧
    ValidIter (some "a,b") ["b", "a"] ∧
    assemble
        { q := "q", offset := none, limit := none, attributesToRetrieve := some "a,b",
          attributesToCrop := none, cropLength := none, attributesToHighlight := none,
          filters := none, matchesParam := none, facetFilters := none,
          facetsDistribution := none }
        { displayedNames := ["a", "b"], nameToId := [], idToName := [] }
        none (fun _ => none) (fun _ _ _ => none) ["a", "b"] ≠
      assemble
        { q := "q", offset := none, limit := none, attributesToRetrieve := some "a,b",
          attributesToCrop := none, cropLength := none, attributesToHighlight := none,
          filters := none, matchesParam := none, facetFilters := none,
          facetsDistribution := none }
        { displayedNames := ["a", "b"], nameToId := [], idToName := [] }
        none (fun _ => none) (fun _ _ _ => none) ["b", "a"] := by
  refine ⟨by decide, by decide, ?_⟩
  intro h
  exact absurd (congrArg (fun r => match r with
    | Except.ok s => s.retrievableFields
    | Except.error _ => ([] : List String)) h) (by decide)

/-- C8 amended: two runs of the assembler on an identical request and schema
snapshot agree on every component of the specification except possibly the
ORDER of the retrievable-field registration sequence: erasing that sequence
the outputs are bit-identical (in particular the facet distribution list, the
crop mapping and the highlight set are iteration-order-independent), and the
two registration sequences are permutations of each other. -/
theorem assemble_iteration_order_independent (params : SearchQuery)
    (schema : Schema) (fa : Option (List FieldId))
    (jp : String → Option JValue)
    (ffp : String → Schema → List FieldId → Option FacetFilterExpr)
    (o1 o2 : List String)
    (h1 : ValidIter params.attributesToRetrieve o1)
    (h2 : ValidIter params.attributesToRetrieve o2) :
    (assemble params schema fa jp ffp o1).map
        (fun s => { s with retrievableFields := [] }) =
      (assemble params schema fa jp ffp o2).map
        (fun s => { s with retrievableFields := [] }) ∧
    ((resolveRetrieve schema.displayedNames params.attributesToRetrieve o1).2).Perm
      ((resolveRetrieve schema.displayedNames params.attributesToRetrieve o2).2) := by
  have key :
      (resolveRetrieve schema.displayedNames params.attributesToRetrieve o1).1 =
        (resolveRetrieve schema.displayedNames params.attributesToRetrieve o2).1 ∧
      ((resolveRetrieve schema.displayedNames params.attributesToRetrieve o1).2).Perm
        ((resolveRetrieve schema.displayedNames params.attributesToRetrieve o2).2) := by
    cases hp : params.attributesToRetrieve with
    | none =>
      rw [hp] at h1 h2
      have e1 : o1 = [] := h1
      have e2 : o2 = [] := h2
      subst e1; subst e2
      exact ⟨rfl, List.Perm.refl _⟩
    | some s =>
      rw [hp] at h1 h2
      have hperm1 : o1.Perm (splitOnChar ',' s).dedup := h1
      have hperm2 : o2.Perm (splitOnChar ',' s).dedup := h2
      have hp12 : o1.Perm o2 := hperm1.trans hperm2.symm
      by_cases hstar : "*" ∈ o1
      · have hstar2 : "*" ∈ o2 := hp12.mem_iff.mp hstar
        simp [resolveRetrieve, hstar, hstar2]
      · have hstar2 : "*" ∉ o2 := fun hm => hstar (hp12.mem_iff.mpr hm)
        have hc1 : ¬(o1.contains "*" = true) := by simp [hstar]
        have hc2 : ¬(o2.contains "*" = true) := by simp [hstar2]
        constructor
        · simp only [resolveRetrieve, if_neg hc1, if_neg hc2]
          apply List.filter_congr
          intro a _
          by_cases ha : a ∈ o1
          · have ha2 : a ∈ o2 := hp12.mem_iff.mp ha
            simp [ha, ha2]
          · have ha2 : a ∉ o2 := fun hm => ha (hp12.mem_iff.mpr hm)
            simp [ha, ha2]
        · simp only [resolveRetrieve, if_neg hc1, if_neg hc2]
          exact hp12.filter _
  refine ⟨?_, key.2⟩
  simp only [assemble]
  cases hf : resolveFacetFilters params.facetFilters schema fa ffp with
  | error e => simp [Except.bind]
  | ok ffE =>
    cases hd : resolveFacetsDistribution params.facetsDistribution schema fa jp with
    | error e => simp [Except.bind]
    | ok fd => simp [Except.bind, Except.map, key.1]

/-- Witness for the amended C8 at `attributesToRetrieve = "a,b"` with the two
iteration orders `["a","b"]` and `["b","a"]`. -/
theorem assemble_iteration_order_independent_witness :
    (assemble
        { q := "q", offset := none, limit := none, attributesToRetrieve := some "a,b",
          attributesToCrop := none, cropLength := none, attributesToHighlight := none,
          filters := none, matchesParam := none, facetFilters := none,
          facetsDistribution := none }
        { displayedNames := ["a", "b"], nameToId := [], idToName := [] }
        none (fun _ => none) (fun _ _ _ => none) ["a", "b"]).map
        (fun s => { s with retrievableFields := [] }) =
      (assemble
        { q := "q", offset := none, limit := none, attributesToRetrieve := some "a,b",
          attributesToCrop := none, cropLength := none, attributesToHighlight := none,
          filters := none, matchesParam := none, facetFilters := none,
          facetsDistribution := none }
        { displayedNames := ["a", "b"], nameToId := [], idToName := [] }
        none (fun _ => none) (fun _ _ _ => none) ["b", "a"]).map
        (fun s => { s with retrievableFields := [] }) ∧
    ((resolveRetrieve ["a", "b"] (some "a,b") ["a", "b"]).2).Perm
      ((resolveRetrieve ["a", "b"] (some "a,b") ["b", "a"]).2) :=
  ⟨(assemble_iteration_order_independent _ _ none (fun _ => none) (fun _ _ _ => none)
      ["a", "b"] ["b", "a"] (by decide) (by decide)).1,
    (assemble_iteration_order_independent
      { q := "q", offset := none, limit := none, attributesToRetrieve := some "a,b",
        attributesToCrop := none, cropLength := none, attributesToHighlight := none,
        filters := none, matchesParam := none, facetFilters := none,
        facetsDistribution := none }
      { displayedNames := ["a", "b"], nameToId := [], idToName := [] }
      none (fun _ => none) (fun _ _ _ => none)
      ["a", "b"] ["b", "a"] (by decide) (by decide)).2⟩

end MeiliSearch
